import Mathlib

/-!
Shallow embedding of the YAI stock-evaluation pipeline (src/yai.py).

Texts are lists of characters; remote calls are modelled by their
outcome (`Except` of an error text or a generation response); pandas
float arithmetic on the indicator path is modelled over `ℚ` extended
with infinities and NaN where division by zero can occur.
-/

namespace YAI

abbrev Text := List Char

/-- The token "BUY" searched for by `generate_recommendation`. -/
def buyTok : Text := ('B' :: 'U' :: 'Y' :: [])

/-- The token "SELL" searched for by `generate_recommendation`. -/
def sellTok : Text := ('S' :: 'E' :: 'L' :: 'L' :: [])

/-- The token "HOLD", the default signal. -/
def holdTok : Text := ('H' :: 'O' :: 'L' :: 'D' :: [])

/-- Python `str.upper()` restricted to per-character uppercasing. -/
def upper (t : Text) : Text := t.map Char.toUpper

/-- Python `needle in hay` substring containment on texts. -/
def containsTok (hay needle : Text) : Bool :=
  match hay with
  | [] => needle.isEmpty
  | _ :: rest => needle.isPrefixOf hay || containsTok rest needle

/-- Python `hay.replace(needle, "", 1)`: remove the first occurrence of
`needle` from `hay`, leaving `hay` unchanged when `needle` does not occur. -/
def replaceFirst (hay needle : Text) : Text :=
  match hay with
  | [] => []
  | c :: rest =>
    if needle.isPrefixOf hay then hay.drop needle.length
    else c :: replaceFirst rest needle

/-- Python `str.strip()` whitespace test. -/
def pyIsSpace (c : Char) : Bool :=
  c = ' ' || c = '\t' || c = '\n' || c = '\r' || c = '\x0b' || c = '\x0c'

/-- Python `str.strip()`: drop whitespace from both ends. -/
def stripText (t : Text) : Text :=
  ((t.dropWhile pyIsSpace).reverse.dropWhile pyIsSpace).reverse

/-- The categorical signal of a Decision. -/
inductive Signal
  | BUY
  | SELL
  | HOLD
  | ERROR
deriving DecidableEq, Repr

/-- The literal token the code assigns to the `signal` variable. -/
def tokenOf : Signal → Text
  | Signal.BUY => buyTok
  | Signal.SELL => sellTok
  | Signal.HOLD => holdTok
  | Signal.ERROR => ('E' :: 'R' :: 'R' :: 'O' :: 'R' :: [])

/-- Signal extraction of `generate_recommendation` (yai.py lines 240-245):
case-insensitive substring search, BUY before SELL, default HOLD. -/
def extractSignal (content : Text) : Signal :=
  if containsTok (upper content) buyTok then Signal.BUY
  else if containsTok (upper content) sellTok then Signal.SELL
  else Signal.HOLD

/-- One element of a multi-part response content: either it has a `.text`
attribute or it is rendered through `str`. -/
inductive Part
  | textPart (s : Text)
  | otherPart (s : Text)
deriving DecidableEq, Repr

/-- Response content: either already a plain text or a list of parts. -/
inductive Content
  | plain (s : Text)
  | parts (l : List Part)
deriving DecidableEq, Repr

/-- The text the code reads off one content part
(`content[0].text if hasattr(content[0], 'text') else str(content[0])`). -/
def firstPartText : Part → Text
  | Part.textPart s => s
  | Part.otherPart s => s

/-- Python IndexError message raised by `content[0]` on an empty list. -/
def idxErrMsg : Text := ("list index out of range").data

/-- Content handling shared by `Agent.analyze` (lines 100-103) and
`generate_recommendation` (lines 234-237): a list keeps only its first
part; indexing an empty list raises (caught by the enclosing `except`). -/
def extractContent : Content → Except Text Text
  | Content.plain s => Except.ok s
  | Content.parts [] => Except.error idxErrMsg
  | Content.parts (p :: _) => Except.ok (firstPartText p)

/-- Outcome of one remote generation call. -/
structure GenResponse where
  content : Content
  inputTokens : Nat
  outputTokens : Nat
deriving DecidableEq, Repr

/-- Result of one Agent: identity, analysis text, token cost. -/
structure Assessment where
  agent : Text
  analysis : Text
  tokens : Nat
deriving DecidableEq, Repr

/-- The failure text prelude "Analysis failed: " of `Agent.analyze`. -/
def failTag : Text := ("Analysis failed: ").data

/-- `Agent.analyze` (yai.py lines 90-115): on a successful call the first
content part becomes the analysis and the token usage is summed; any
failure is absorbed into a degraded result with zero cost. -/
def analyze (name : Text) (res : Except Text GenResponse) : Assessment :=
  match res with
  | Except.error e => ⟨name, failTag ++ e, 0⟩
  | Except.ok r =>
    match extractContent r.content with
    | Except.error e => ⟨name, failTag ++ e, 0⟩
    | Except.ok c => ⟨name, c, r.inputTokens + r.outputTokens⟩

/-- Result of the Synthesizer. -/
structure Recommendation where
  signal : Signal
  explanation : Text
  tokens : Nat
deriving DecidableEq, Repr

/-- The failure text prelude of the client-initialization branch. -/
def initFailTag : Text := ("Failed to initialize client: ").data

/-- `generate_recommendation` (yai.py lines 204-259), with the client
initialization and the remote call each modelled by their outcome. -/
def generate_recommendation (initRes : Except Text Unit)
    (callRes : Except Text GenResponse) : Recommendation :=
  match initRes with
  | Except.error e => ⟨Signal.ERROR, initFailTag ++ e, 0⟩
  | Except.ok _ =>
    match callRes with
    | Except.error e => ⟨Signal.ERROR, e, 0⟩
    | Except.ok r =>
      match extractContent r.content with
      | Except.error e => ⟨Signal.ERROR, e, 0⟩
      | Except.ok content =>
        let signal := extractSignal content
        ⟨signal, stripText (replaceFirst content (tokenOf signal)),
          r.inputTokens + r.outputTokens⟩

/-! ## Indicator engine (StockData.get_data, yai.py lines 36-58)

Series values are rationals; an undefined (NaN) entry of a rolling
statistic is `none`.  The `rs = gain / loss` float division can produce
infinity or NaN, captured by `Fp`. -/

/-- A pandas float value: a finite rational, an infinity, or NaN. -/
inductive Fp
  | val (q : ℚ)
  | inf
  | negInf
  | nan
deriving DecidableEq, Repr

/-- IEEE division of two finite values as pandas performs it for
`rs = gain / loss`: division by zero gives a signed infinity, 0/0 NaN. -/
def fdiv (a b : ℚ) : Fp :=
  if b = 0 then
    (if a = 0 then Fp.nan else if 0 < a then Fp.inf else Fp.negInf)
  else Fp.val (a / b)

/-- `100 - (100 / (1 + rs))` in pandas float arithmetic. -/
def rsiOfRs : Fp → Fp
  | Fp.val q => if 1 + q = 0 then Fp.negInf else Fp.val (100 - 100 / (1 + q))
  | Fp.inf => Fp.val 100
  | Fp.negInf => Fp.val 100
  | Fp.nan => Fp.nan

/-- `hist['Close'].diff()`: first entry NaN, then successive differences. -/
def diffs (xs : List ℚ) : List (Option ℚ) :=
  match xs with
  | [] => []
  | x :: rest => none :: List.zipWith (fun b a => some (b - a)) rest (x :: rest)

/-- `delta.where(delta > 0, 0)`: the positive part; NaN compares false and
is replaced by 0. -/
def pyGain (d : Option ℚ) : ℚ :=
  match d with
  | none => 0
  | some d => if 0 < d then d else 0

/-- `-delta.where(delta < 0, 0)`: the negated negative part; NaN becomes 0. -/
def pyLoss (d : Option ℚ) : ℚ :=
  match d with
  | none => 0
  | some d => if d < 0 then -d else 0

/-- The per-period gain series of a close-price series. -/
def gains (xs : List ℚ) : List ℚ := (diffs xs).map pyGain

/-- The per-period loss series of a close-price series. -/
def losses (xs : List ℚ) : List ℚ := (diffs xs).map pyLoss

/-- `rolling(window=w).mean()`: entry `i` is the mean of the `w` values
ending at `i`, undefined (`none`) while the window is unfilled. -/
def rollingMean (w : Nat) (xs : List ℚ) : List (Option ℚ) :=
  (List.range xs.length).map (fun i =>
    if w ≤ i + 1 then some (((xs.take (i + 1)).drop (i + 1 - w)).sum / (w : ℚ))
    else none)

/-- `.iloc[-1]` of a rolling statistic: the last entry, `none` when the
series is empty or the last window is unfilled. -/
def lastOpt (l : List (Option ℚ)) : Option ℚ := l.getLast?.join

/-- `hist['SMA\x7bw\x7d'].iloc[-1]`: last value of the `w`-period mean. -/
def smaLast (w : Nat) (xs : List ℚ) : Option ℚ := lastOpt (rollingMean w xs)

/-- Last value of the 14-period mean of gains. -/
def gainMeanLast (xs : List ℚ) : Option ℚ := lastOpt (rollingMean 14 (gains xs))

/-- Last value of the 14-period mean of losses. -/
def lossMeanLast (xs : List ℚ) : Option ℚ := lastOpt (rollingMean 14 (losses xs))

/-- `hist['RSI'].iloc[-1]`: NaN (`none`) while the window is unfilled,
otherwise `100 - 100/(1 + gain/loss)` in float arithmetic. -/
def rsiLast (xs : List ℚ) : Option Fp :=
  match gainMeanLast xs, lossMeanLast xs with
  | some g, some l => some (rsiOfRs (fdiv g l))
  | _, _ => none

/-- The windowed technical statistics of the FeatureSet. -/
structure Technical where
  sma50 : Option ℚ
  sma200 : Option ℚ
  rsi : Option Fp
deriving DecidableEq, Repr

/-- The windowed fields of `get_data`'s `technical` dictionary. -/
def get_data_technical (closes : List ℚ) : Technical :=
  ⟨smaLast 50 closes, smaLast 200 closes, rsiLast closes⟩

/-- The delta entries covered by the last 14-period RSI window. -/
def winOpts (xs : List ℚ) : List (Option ℚ) :=
  (diffs xs).drop (xs.length - 14)

/-- The price deltas covered by the last 14-period RSI window, with the
leading NaN of `diff()` reading as 0 exactly as `where(..., 0)` makes it. -/
def winDeltas (xs : List ℚ) : List ℚ :=
  (winOpts xs).map (fun o => o.getD 0)

/-! ## Orchestrator and per-request pipeline (yai.py lines 261-312) -/

/-- The three registered analysts, in registration order. -/
def analystNames : List Text :=
  (("Technical Analysis").data :: ("Fundamental Analysis").data ::
    ("Market Analysis").data :: [])

/-- `asyncio.gather`: tasks complete in `order`; each completion writes its
result into the slot of its spawn index; slots start unfilled. -/
def scheduleGather {α : Type} (tasks : List α) (order : List Nat) :
    List (Option α) :=
  order.foldl (fun acc i =>
    match tasks[i]? with
    | some a => acc.set i (some a)
    | none => acc) (List.replicate tasks.length (none : Option α))

/-- The assessments the registered evaluators produce, in registration
order, each evaluator paired with the outcome of its remote call. -/
def tasksOf (evals : List (Text × Except Text GenResponse)) :
    List Assessment :=
  evals.map (fun p => analyze p.1 p.2)

/-- The orchestrator's gathered output for a completion order. -/
def orchestrate (evals : List (Text × Except Text GenResponse))
    (order : List Nat) : List (Option Assessment) :=
  scheduleGather (tasksOf evals) order

/-- Observable remote-interaction events of one request. -/
inductive Event
  | fetch
  | evalCall (agent : Text)
  | synthCall
deriving DecidableEq, Repr

/-- The report assembled at the end of a successful request. -/
structure Report where
  analyses : List Assessment
  recommendation : Recommendation
  totalTokens : Nat
deriving DecidableEq, Repr

/-- How one request ends: reported, or aborted with an error message. -/
inductive Outcome
  | reported (r : Report)
  | failed (msg : Text)
deriving DecidableEq, Repr

/-- Message prelude printed by `analyze_stock`'s exception handler. -/
def errTag : Text := ("Error: ").data

/-- Message prelude of the exception raised by `StockData.get_data`. -/
def fetchErrTag : Text := ("Error fetching data for ").data

/-- The ": " separator of the fetch error message. -/
def colonTag : Text := (": ").data

/-- `analyze_stock` (yai.py lines 261-312): fetch, then gather the three
analyst calls (oracle outcomes in `evalRes`, completion order `order`),
then synthesize; a fetch failure aborts before any analyst runs. -/
def analyze_stock (symbol : Text) (dataRes : Except Text Unit)
    (evalRes : List (Except Text GenResponse)) (order : List Nat)
    (initRes : Except Text Unit) (synthRes : Except Text GenResponse) :
    List Event × Outcome :=
  match dataRes with
  | Except.error e =>
    ([Event.fetch], Outcome.failed (errTag ++ fetchErrTag ++ symbol ++ colonTag ++ e))
  | Except.ok _ =>
    let analyses :=
      (scheduleGather (tasksOf (analystNames.zip evalRes)) order).reduceOption
    let recom := generate_recommendation initRes synthRes
    let total := (analyses.map Assessment.tokens).sum + recom.tokens
    (Event.fetch :: ((analystNames.map Event.evalCall) ++
        (match initRes with
         | Except.error _ => []
         | Except.ok _ => [Event.synthCall])),
     Outcome.reported ⟨analyses, recom, total⟩)

/-! ## Lemmas about substring search and first-occurrence removal -/

theorem containsTok_iff (hay needle : Text) :
    containsTok hay needle = true ↔ needle <:+: hay := by
  induction hay with
  | nil => simp [containsTok, List.isEmpty_iff, List.infix_nil]
  | cons c rest ih =>
    simp [containsTok, Bool.or_eq_true, List.isPrefixOf_iff_prefix, ih,
      List.infix_cons_iff]

theorem replaceFirst_of_not_infix (hay needle : Text) (h : ¬ needle <:+: hay) :
    replaceFirst hay needle = hay := by
  induction hay with
  | nil => simp [replaceFirst]
  | cons c rest ih =>
    have hp : ¬ needle.isPrefixOf (c :: rest) = true := fun hb =>
      h (List.isPrefixOf_iff_prefix.mp hb).isInfix
    rw [replaceFirst, if_neg hp, ih (fun hi => h (List.infix_cons hi))]

theorem replaceFirst_spec (hay needle : Text) (h : needle <:+: hay) :
    ∃ pre post, hay = pre ++ needle ++ post ∧
      replaceFirst hay needle = pre ++ post ∧
      ∀ pre2 post2, hay = pre2 ++ needle ++ post2 → pre.length ≤ pre2.length := by
  induction hay with
  | nil =>
    have hn : needle = [] := List.infix_nil.mp h
    subst hn
    exact ⟨[], [], rfl, rfl, fun _ _ _ => Nat.zero_le _⟩
  | cons c rest ih =>
    by_cases hp : needle <+: (c :: rest)
    · obtain ⟨post, hpost⟩ := hp
      have hb : needle.isPrefixOf (c :: rest) = true :=
        List.isPrefixOf_iff_prefix.mpr ⟨post, hpost⟩
      refine ⟨[], post, by simpa using hpost.symm, ?_, fun _ _ _ => Nat.zero_le _⟩
      rw [replaceFirst, if_pos hb, ← hpost, List.drop_left]
      rfl
    · have hi : needle <:+: rest := (List.infix_cons_iff.mp h).resolve_left hp
      obtain ⟨pre, post, heq, hrw, hmin⟩ := ih hi
      have hb : ¬ needle.isPrefixOf (c :: rest) = true := fun hb =>
        hp (List.isPrefixOf_iff_prefix.mp hb)
      refine ⟨c :: pre, post, by simp [heq], ?_, ?_⟩
      · rw [replaceFirst, if_neg hb, hrw]
        rfl
      · rintro pre2 post2 h2
        cases pre2 with
        | nil => exact absurd ⟨post2, by simpa using h2.symm⟩ hp
        | cons d pre2' =>
          have h3 : rest = pre2' ++ needle ++ post2 := by
            have := h2
            simp only [List.cons_append, List.cons.injEq] at this
            exact this.2
          have := hmin pre2' post2 h3
          simp only [List.length_cons]
          omega

/-- C1: for every synthesizer response text, signal extraction is a
case-insensitive substring search with BUY checked before SELL: if the
uppercased text contains "BUY" the signal is BUY (even when it also
contains "SELL"), otherwise if it contains "SELL" the signal is SELL,
otherwise it is HOLD. -/
theorem c1_signal_priority (content : Text) (tin tout : Nat) :
    ((buyTok <:+: upper content) →
      (generate_recommendation (Except.ok ())
        (Except.ok ⟨Content.plain content, tin, tout⟩)).signal = Signal.BUY) ∧
    (¬ (buyTok <:+: upper content) → (sellTok <:+: upper content) →
      (generate_recommendation (Except.ok ())
        (Except.ok ⟨Content.plain content, tin, tout⟩)).signal = Signal.SELL) ∧
    (¬ (buyTok <:+: upper content) → ¬ (sellTok <:+: upper content) →
      (generate_recommendation (Except.ok ())
        (Except.ok ⟨Content.plain content, tin, tout⟩)).signal = Signal.HOLD) := by
  have hs : (generate_recommendation (Except.ok ())
      (Except.ok ⟨Content.plain content, tin, tout⟩)).signal = extractSignal content := rfl
  refine ⟨fun hb => ?_, fun hb hsell => ?_, fun hb hsell => ?_⟩
  · have hb' : containsTok (upper content) buyTok = true := (containsTok_iff _ _).mpr hb
    rw [hs, extractSignal, if_pos hb']
  · have hb' : containsTok (upper content) buyTok = false :=
      Bool.eq_false_iff.mpr (fun hx => hb ((containsTok_iff _ _).mp hx))
    have hsell' : containsTok (upper content) sellTok = true := (containsTok_iff _ _).mpr hsell
    rw [hs, extractSignal, hb', hsell']
    rfl
  · have hb' : containsTok (upper content) buyTok = false :=
      Bool.eq_false_iff.mpr (fun hx => hb ((containsTok_iff _ _).mp hx))
    have hsell' : containsTok (upper content) sellTok = false :=
      Bool.eq_false_iff.mpr (fun hx => hsell ((containsTok_iff _ _).mp hx))
    rw [hs, extractSignal, hb', hsell']
    rfl

/-- C1 witness: the spec's three concrete extraction examples, obtained by
applying `c1_signal_priority`. -/
theorem c1_signal_priority_witness :
    (generate_recommendation (Except.ok ())
      (Except.ok ⟨Content.plain (("BUY more, do not SELL").data), 1, 2⟩)).signal
        = Signal.BUY ∧
    (generate_recommendation (Except.ok ())
      (Except.ok ⟨Content.plain (("Recommend: SELL due to debt").data), 1, 2⟩)).signal
        = Signal.SELL ∧
    (generate_recommendation (Except.ok ())
      (Except.ok ⟨Content.plain (("stay put").data), 1, 2⟩)).signal
        = Signal.HOLD :=
  ⟨(c1_signal_priority (("BUY more, do not SELL").data) 1 2).1 (by decide),
   (c1_signal_priority (("Recommend: SELL due to debt").data) 1 2).2.1
     (by decide) (by decide),
   (c1_signal_priority (("stay put").data) 1 2).2.2 (by decide) (by decide)⟩

/-- C2 counterexample: on the response text "BUY BUY" the rationale after
stripping still contains the leading signal token "BUY", so the rationale
is not free of the signal token. -/
theorem c2_counterexample :
    (generate_recommendation (Except.ok ())
      (Except.ok ⟨Content.plain (("BUY BUY").data), 1, 2⟩)).signal = Signal.BUY ∧
    containsTok
      (generate_recommendation (Except.ok ())
        (Except.ok ⟨Content.plain (("BUY BUY").data), 1, 2⟩)).explanation
      (tokenOf Signal.BUY) = true := by
  exact ⟨rfl, rfl⟩

/-- C2 (amended): the rationale is the whitespace-stripped result of
removing the first literal occurrence of the chosen signal token from the
response text — a single removal at the earliest occurrence, the identity
when the token does not occur literally; the rationale can still contain
the token (for example when it occurs more than once). -/
theorem c2_amended_single_removal (content : Text) (tin tout : Nat) :
    ((generate_recommendation (Except.ok ())
        (Except.ok ⟨Content.plain content, tin, tout⟩)).explanation
      = stripText (replaceFirst content
          (tokenOf (extractSignal content)))) ∧
    ((tokenOf (extractSignal content)) <:+: content →
      ∃ pre post, content = pre ++ (tokenOf (extractSignal content)) ++ post ∧
        replaceFirst content (tokenOf (extractSignal content)) = pre ++ post ∧
        ∀ pre2 post2,
          content = pre2 ++ (tokenOf (extractSignal content)) ++ post2 →
            pre.length ≤ pre2.length) ∧
    (¬ (tokenOf (extractSignal content)) <:+: content →
      replaceFirst content (tokenOf (extractSignal content)) = content) :=
  ⟨rfl, replaceFirst_spec content _, replaceFirst_of_not_infix content _⟩

/-- C2 witness: the amended statement applied to the spec's SELL example. -/
theorem c2_amended_single_removal_witness :
    ((generate_recommendation (Except.ok ())
        (Except.ok ⟨Content.plain (("Recommend: SELL due to debt").data), 1, 2⟩)).explanation
      = stripText (replaceFirst (("Recommend: SELL due to debt").data)
          (tokenOf (extractSignal (("Recommend: SELL due to debt").data))))) ∧
    (∃ pre post,
      ("Recommend: SELL due to debt").data
        = pre ++ (tokenOf (extractSignal (("Recommend: SELL due to debt").data))) ++ post ∧
      replaceFirst (("Recommend: SELL due to debt").data)
          (tokenOf (extractSignal (("Recommend: SELL due to debt").data))) = pre ++ post ∧
      ∀ pre2 post2,
        ("Recommend: SELL due to debt").data
          = pre2 ++ (tokenOf (extractSignal (("Recommend: SELL due to debt").data))) ++ post2 →
          pre.length ≤ pre2.length) :=
  ⟨(c2_amended_single_removal (("Recommend: SELL due to debt").data) 1 2).1,
   (c2_amended_single_removal (("Recommend: SELL due to debt").data) 1 2).2.1 (by decide)⟩

/-- C4: when an evaluator's remote generation call fails for any reason,
`analyze` does not propagate the failure: it returns an Assessment carrying
the evaluator's identity, a failure description as its text, and zero cost. -/
theorem c4_evaluator_failure_contained (name e : Text) :
    analyze name (Except.error e) = ⟨name, failTag ++ e, 0⟩ ∧
    (analyze name (Except.error e)).agent = name ∧
    (analyze name (Except.error e)).tokens = 0 :=
  ⟨rfl, rfl, rfl⟩

/-- C6: when the synthesizer's remote call fails to be issued (client
initialization) or fails outright, `generate_recommendation` returns signal
ERROR, the failure description as rationale, and zero cost; and the request
still completes with a report rather than aborting. -/
theorem c6_synthesizer_failure (e symbol : Text)
    (evalRes : List (Except Text GenResponse)) (order : List Nat)
    (synthRes : Except Text GenResponse) :
    generate_recommendation (Except.error e) synthRes
      = ⟨Signal.ERROR, initFailTag ++ e, 0⟩ ∧
    generate_recommendation (Except.ok ()) (Except.error e)
      = ⟨Signal.ERROR, e, 0⟩ ∧
    ∃ r, (analyze_stock symbol (Except.ok ()) evalRes order
        (Except.ok ()) (Except.error e)).2 = Outcome.reported r ∧
      r.recommendation = ⟨Signal.ERROR, e, 0⟩ :=
  ⟨rfl, rfl, ⟨_, rfl, rfl⟩⟩

/-- C10: a multi-part response content is reduced to its first part by both
the evaluator and the synthesizer; the remaining parts never influence the
result. -/
theorem c10_first_part_only (name : Text) (p : Part) (rest : List Part)
    (tin tout : Nat) (initRes : Except Text Unit) :
    analyze name (Except.ok ⟨Content.parts (p :: rest), tin, tout⟩)
      = analyze name (Except.ok ⟨Content.parts (p :: []), tin, tout⟩) ∧
    (analyze name (Except.ok ⟨Content.parts (p :: rest), tin, tout⟩)).analysis
      = firstPartText p ∧
    generate_recommendation initRes (Except.ok ⟨Content.parts (p :: rest), tin, tout⟩)
      = generate_recommendation initRes (Except.ok ⟨Content.parts (p :: []), tin, tout⟩) ∧
    (generate_recommendation (Except.ok ())
      (Except.ok ⟨Content.parts (p :: rest), tin, tout⟩)).signal
        = extractSignal (firstPartText p) := by
  refine ⟨rfl, rfl, ?_, rfl⟩
  cases initRes with
  | error e => rfl
  | ok u => rfl

/-! ## Lemmas about the gather scheduler -/

theorem gatherAux {α : Type} (tasks : List α) (order : List Nat) :
    ∀ acc : List (Option α), acc.length = tasks.length →
      ((order.foldl (fun acc i =>
          match tasks[i]? with
          | some a => acc.set i (some a)
          | none => acc) acc).length = tasks.length ∧
       ∀ j : Nat, (order.foldl (fun acc i =>
          match tasks[i]? with
          | some a => acc.set i (some a)
          | none => acc) acc)[j]? =
         if j ∈ order ∧ j < tasks.length then (tasks[j]?).map some
         else acc[j]?) := by
  induction order with
  | nil =>
    intro acc hlen
    refine ⟨hlen, fun j => ?_⟩
    simp
  | cons i rest ih =>
    intro acc hlen
    have hlen' : (match tasks[i]? with
        | some a => acc.set i (some a)
        | none => acc).length = tasks.length := by
      cases htask : tasks[i]? <;> simp [htask, hlen]
    obtain ⟨hL, hP⟩ := ih _ hlen'
    rw [List.foldl_cons]
    refine ⟨hL, fun j => ?_⟩
    rw [hP j]
    by_cases hjr : j ∈ rest ∧ j < tasks.length
    · have : j ∈ i :: rest ∧ j < tasks.length := ⟨List.mem_cons_of_mem i hjr.1, hjr.2⟩
      rw [if_pos hjr, if_pos this]
    · rw [if_neg hjr]
      by_cases hji : j = i
      · subst hji
        cases htask : tasks[j]? with
        | some a =>
          have hjlt : j < tasks.length := (List.getElem?_eq_some.mp htask).1
          have hcond : j ∈ j :: rest ∧ j < tasks.length :=
            ⟨List.mem_cons_self j rest, hjlt⟩
          rw [if_pos hcond]
          exact List.getElem?_set_eq_of_lt (some a) (hlen ▸ hjlt)
        | none =>
          have hjge : tasks.length ≤ j := by
            simpa using List.getElem?_eq_none_iff.mp htask
          have hcond : ¬ (j ∈ j :: rest ∧ j < tasks.length) := fun hc => by omega
          rw [if_neg hcond]
      · have hcond : ¬ (j ∈ i :: rest ∧ j < tasks.length) := by
          rintro ⟨hmem, hlt⟩
          rcases List.mem_cons.mp hmem with rfl | hmr
          · exact hji rfl
          · exact hjr ⟨hmr, hlt⟩
        rw [if_neg hcond]
        cases htask : tasks[i]? with
        | some a => exact List.getElem?_set_ne (fun h => hji h.symm)
        | none => rfl

theorem scheduleGather_perm {α : Type} (tasks : List α) (order : List Nat)
    (hperm : order.Perm (List.range tasks.length)) :
    scheduleGather tasks order = tasks.map some := by
  obtain ⟨hL, hP⟩ := gatherAux tasks order
    (List.replicate tasks.length (none : Option α)) (by simp)
  apply List.ext_getElem?
  intro j
  rw [scheduleGather, hP j]
  by_cases hj : j < tasks.length
  · have hmem : j ∈ order := hperm.mem_iff.mpr (List.mem_range.mpr hj)
    rw [if_pos ⟨hmem, hj⟩, List.getElem?_map]
  · have h1 : ¬ (j ∈ order ∧ j < tasks.length) := fun hc => hj hc.2
    rw [if_neg h1, List.getElem?_map]
    have h2 : tasks[j]? = none := List.getElem?_eq_none_iff.mpr (by omega)
    have h3 : (List.replicate tasks.length (none : Option α))[j]? = none :=
      List.getElem?_eq_none_iff.mpr (by simpa using (by omega : tasks.length ≤ j))
    rw [h2, h3]
    rfl

theorem reduceOption_map_some {α : Type} (l : List α) :
    (l.map some).reduceOption = l := by
  induction l with
  | nil => rfl
  | cons a t ih => simp [List.reduceOption_cons_of_some, ih]

/-- C5: for every list of registered evaluators and every completion order
of their concurrent calls, the orchestrator's gathered output has exactly
one slot per evaluator and the i-th slot holds the Assessment of the i-th
registered evaluator — registration order, not completion order. -/
theorem c5_orchestrator_order (evals : List (Text × Except Text GenResponse))
    (order : List Nat) (hperm : order.Perm (List.range evals.length)) :
    (orchestrate evals order).length = evals.length ∧
    orchestrate evals order = evals.map (fun p => some (analyze p.1 p.2)) ∧
    ∀ i : Nat, i < evals.length →
      (orchestrate evals order)[i]?
        = (evals[i]?).map (fun p => some (analyze p.1 p.2)) := by
  have hlen : (tasksOf evals).length = evals.length := by simp [tasksOf]
  have h := scheduleGather_perm (tasksOf evals) order (by rwa [hlen])
  have hmap : (tasksOf evals).map some = evals.map (fun p => some (analyze p.1 p.2)) := by
    rw [tasksOf, List.map_map]
    rfl
  refine ⟨?_, ?_, ?_⟩
  · rw [orchestrate, h, hmap]
    simp
  · rw [orchestrate, h, hmap]
  · intro i hi
    rw [orchestrate, h, hmap, List.getElem?_map]

/-- C5 witness: two evaluators, one failing, completing in reversed order
still yield the registration-ordered output. -/
theorem c5_orchestrator_order_witness :
    orchestrate
      (((("Technical Analysis").data, Except.error (("boom").data)) ::
        ((("Market Analysis").data,
          Except.ok ⟨Content.plain (("fine").data), 2, 3⟩)) :: []))
      (1 :: 0 :: [])
    = (((("Technical Analysis").data, Except.error (("boom").data)) ::
        ((("Market Analysis").data,
          Except.ok ⟨Content.plain (("fine").data), 2, 3⟩)) :: [])).map
        (fun p => some (analyze p.1 p.2)) :=
  (c5_orchestrator_order _ _ (by decide)).2.1

/-- Token cost of the synthesizer's result is zero whenever client
initialization or the remote call failed. -/
theorem generate_recommendation_tokens_zero (initRes : Except Text Unit)
    (synthRes : Except Text GenResponse)
    (h : (∃ e, initRes = Except.error e) ∨ (∃ e, synthRes = Except.error e)) :
    (generate_recommendation initRes synthRes).tokens = 0 := by
  cases initRes with
  | error e => rfl
  | ok u =>
    cases u
    rcases h with ⟨e, he⟩ | ⟨e, he⟩
    · exact absurd he (by simp)
    · subst he
      rfl

/-- C7: in every completed request the reported total cost is the sum of
the Assessments' costs plus the Decision's cost; when every evaluator call
and the synthesizer call fail, the total is zero. -/
theorem c7_total_cost (symbol : Text) (evalRes : List (Except Text GenResponse))
    (order : List Nat) (initRes : Except Text Unit)
    (synthRes : Except Text GenResponse)
    (hperm : order.Perm (List.range (analystNames.zip evalRes).length)) :
    ∃ r, (analyze_stock symbol (Except.ok ()) evalRes order initRes synthRes).2
        = Outcome.reported r ∧
      r.analyses = tasksOf (analystNames.zip evalRes) ∧
      r.totalTokens = (r.analyses.map Assessment.tokens).sum
        + r.recommendation.tokens ∧
      ((∀ res ∈ evalRes, ∃ e, res = Except.error e) →
        ((∃ e, initRes = Except.error e) ∨ (∃ e, synthRes = Except.error e)) →
        r.totalTokens = 0) := by
  have hlen : (tasksOf (analystNames.zip evalRes)).length
      = (analystNames.zip evalRes).length := by simp [tasksOf]
  have hgather : (scheduleGather (tasksOf (analystNames.zip evalRes)) order).reduceOption
      = tasksOf (analystNames.zip evalRes) := by
    rw [scheduleGather_perm _ _ (by rwa [hlen]), reduceOption_map_some]
  refine ⟨_, rfl, ?_, rfl, ?_⟩
  · exact hgather
  · intro hall hfail
    have hz : ∀ a ∈ (scheduleGather (tasksOf (analystNames.zip evalRes)) order).reduceOption,
        a.tokens = 0 := by
      rw [hgather]
      intro a ha
      obtain ⟨p, hp, rfl⟩ := List.mem_map.mp ha
      obtain ⟨e, he⟩ := hall p.2 (List.of_mem_zip hp).2
      rw [he]
      rfl
    have hsum : (((scheduleGather (tasksOf (analystNames.zip evalRes)) order).reduceOption).map
        Assessment.tokens).sum = 0 := by
      apply List.sum_eq_zero
      intro x hx
      obtain ⟨a, ha, rfl⟩ := List.mem_map.mp hx
      exact hz a ha
    show (((scheduleGather (tasksOf (analystNames.zip evalRes)) order).reduceOption).map
        Assessment.tokens).sum + (generate_recommendation initRes synthRes).tokens = 0
    rw [hsum, generate_recommendation_tokens_zero initRes synthRes hfail]

/-- C7 witness: three failed evaluators and a failed synthesis, completion
order 2, 0, 1, report a total cost of zero. -/
theorem c7_total_cost_witness :
    ∃ r, (analyze_stock (("AAPL").data) (Except.ok ())
        ((Except.error (("a").data)) :: (Except.error (("b").data)) ::
          (Except.error (("c").data)) :: [])
        (2 :: 0 :: 1 :: []) (Except.ok ())
        (Except.error (("quota").data))).2 = Outcome.reported r ∧
      r.totalTokens = 0 := by
  obtain ⟨r, h1, _, _, h4⟩ := c7_total_cost (("AAPL").data)
    ((Except.error (("a").data)) :: (Except.error (("b").data)) ::
      (Except.error (("c").data)) :: [])
    (2 :: 0 :: 1 :: []) (Except.ok ()) (Except.error (("quota").data))
    (by decide)
  refine ⟨r, h1, h4 ?_ (Or.inr ⟨(("quota").data), rfl⟩)⟩
  intro res hres
  simp only [List.mem_cons, List.not_mem_nil, or_false] at hres
  rcases hres with rfl | rfl | rfl
  · exact ⟨(("a").data), rfl⟩
  · exact ⟨(("b").data), rfl⟩
  · exact ⟨(("c").data), rfl⟩

/-- C8: when the market-data fetch fails, the request emits no evaluator
call and no synthesizer call: the trace is the single fetch attempt and the
outcome is a request-level error message. -/
theorem c8_fetch_failure_aborts (symbol e : Text)
    (evalRes : List (Except Text GenResponse)) (order : List Nat)
    (initRes : Except Text Unit) (synthRes : Except Text GenResponse) :
    analyze_stock symbol (Except.error e) evalRes order initRes synthRes
      = ([Event.fetch],
         Outcome.failed (errTag ++ fetchErrTag ++ symbol ++ colonTag ++ e)) ∧
    (∀ a, Event.evalCall a
      ∉ (analyze_stock symbol (Except.error e) evalRes order initRes synthRes).1) ∧
    Event.synthCall
      ∉ (analyze_stock symbol (Except.error e) evalRes order initRes synthRes).1 := by
  refine ⟨rfl, fun a => ?_, ?_⟩ <;> simp [analyze_stock]

/-! ## Lemmas about the indicator engine -/

theorem diffs_length (xs : List ℚ) : (diffs xs).length = xs.length := by
  cases xs with
  | nil => rfl
  | cons x rest => simp [diffs]

theorem gains_length (xs : List ℚ) : (gains xs).length = xs.length := by
  simp [gains, diffs_length]

theorem losses_length (xs : List ℚ) : (losses xs).length = xs.length := by
  simp [losses, diffs_length]

theorem rollingMean_length (w : Nat) (xs : List ℚ) :
    (rollingMean w xs).length = xs.length := by
  simp [rollingMean]

theorem lastOpt_rollingMean_short (w : Nat) (xs : List ℚ)
    (h : xs.length < w) : lastOpt (rollingMean w xs) = none := by
  rcases Nat.eq_zero_or_pos xs.length with h0 | h0
  · simp [lastOpt, rollingMean, h0]
  · have hidx : xs.length - 1 < xs.length := by omega
    rw [lastOpt, List.getLast?_eq_getElem? _, rollingMean_length]
    rw [rollingMean, List.getElem?_map]
    have hr : (List.range xs.length)[xs.length - 1]? = some (xs.length - 1) := by
      simp [List.getElem?_range, hidx]
    rw [hr]
    have hc : ¬ w ≤ xs.length - 1 + 1 := by omega
    simp [hc]

theorem lastOpt_rollingMean_full (w : Nat) (xs : List ℚ)
    (hw : 0 < w) (h : w ≤ xs.length) :
    lastOpt (rollingMean w xs)
      = some ((xs.drop (xs.length - w)).sum / (w : ℚ)) := by
  have h0 : 0 < xs.length := by omega
  have hidx : xs.length - 1 < xs.length := by omega
  rw [lastOpt, List.getLast?_eq_getElem? _, rollingMean_length]
  rw [rollingMean, List.getElem?_map]
  have hr : (List.range xs.length)[xs.length - 1]? = some (xs.length - 1) := by
    simp [List.getElem?_range, hidx]
  rw [hr]
  have hc : w ≤ xs.length - 1 + 1 := by omega
  have h1 : xs.length - 1 + 1 = xs.length := by omega
  simp only [Option.map_some', h1, List.take_length]
  rw [if_pos h]
  rfl

theorem pyGain_nonneg (o : Option ℚ) : 0 ≤ pyGain o := by
  cases o with
  | none => simp [pyGain]
  | some d =>
    by_cases hd : 0 < d <;> simp [pyGain, hd]
    linarith

theorem pyLoss_nonneg (o : Option ℚ) : 0 ≤ pyLoss o := by
  cases o with
  | none => simp [pyLoss]
  | some d =>
    by_cases hd : d < 0 <;> simp [pyLoss, hd]
    linarith

theorem pyGain_eq_zero (o : Option ℚ) (h : o.getD 0 = 0) : pyGain o = 0 := by
  cases o with
  | none => rfl
  | some d =>
    simp only [Option.getD_some] at h
    simp [pyGain, h]

theorem pyLoss_eq_zero (o : Option ℚ) (h : o.getD 0 = 0) : pyLoss o = 0 := by
  cases o with
  | none => rfl
  | some d =>
    simp only [Option.getD_some] at h
    simp [pyLoss, h]

theorem pyLoss_eq_zero_of_nonneg (o : Option ℚ) (h : 0 ≤ o.getD 0) :
    pyLoss o = 0 := by
  cases o with
  | none => rfl
  | some d =>
    simp only [Option.getD_some] at h
    simp [pyLoss, not_lt.mpr h]

theorem pyGain_pos (o : Option ℚ) (h : 0 < o.getD 0) : 0 < pyGain o := by
  cases o with
  | none => simp at h
  | some d =>
    simp only [Option.getD_some] at h
    simp [pyGain, h]

theorem pyLoss_pos (o : Option ℚ) (h : o.getD 0 < 0) : 0 < pyLoss o := by
  cases o with
  | none => simp at h
  | some d =>
    simp only [Option.getD_some] at h
    simp only [pyLoss, if_pos h]
    linarith

theorem sum_pos_of_mem (l : List ℚ) (hnn : ∀ x ∈ l, 0 ≤ x) (a : ℚ)
    (ha : a ∈ l) (hpos : 0 < a) : 0 < l.sum := by
  induction l with
  | nil => cases ha
  | cons b t ih =>
    rw [List.sum_cons]
    rcases List.mem_cons.mp ha with rfl | hat
    · have ht : 0 ≤ t.sum := List.sum_nonneg (fun x hx => hnn x (List.mem_cons_of_mem _ hx))
      linarith
    · have hb : 0 ≤ b := hnn b (List.mem_cons_self _ _)
      have := ih (fun x hx => hnn x (List.mem_cons_of_mem _ hx)) hat
      linarith

/-- C9: every windowed statistic computed from a series shorter than its
period (50-period mean, 200-period mean, 14-period oscillator) is surfaced
as absent, never as zero. -/
theorem c9_short_series_absent (closes : List ℚ) :
    (closes.length < 50 → (get_data_technical closes).sma50 = none) ∧
    (closes.length < 200 → (get_data_technical closes).sma200 = none) ∧
    (closes.length < 14 → (get_data_technical closes).rsi = none) := by
  refine ⟨fun h => ?_, fun h => ?_, fun h => ?_⟩
  · exact lastOpt_rollingMean_short 50 closes h
  · exact lastOpt_rollingMean_short 200 closes h
  · have hg : gainMeanLast closes = none :=
      lastOpt_rollingMean_short 14 _ (by rw [gains_length]; exact h)
    show rsiLast closes = none
    rw [rsiLast, hg]

/-- C9 witness: a one-point series has all three statistics absent. -/
theorem c9_short_series_absent_witness :
    (get_data_technical ((1 : ℚ) :: [])).sma50 = none ∧
    (get_data_technical ((1 : ℚ) :: [])).sma200 = none ∧
    (get_data_technical ((1 : ℚ) :: [])).rsi = none :=
  ⟨(c9_short_series_absent ((1 : ℚ) :: [])).1 (by decide),
   (c9_short_series_absent ((1 : ℚ) :: [])).2.1 (by decide),
   (c9_short_series_absent ((1 : ℚ) :: [])).2.2 (by decide)⟩

theorem sum_nonneg_eq_zero (l : List ℚ) (hnn : ∀ x ∈ l, 0 ≤ x)
    (hs : l.sum = 0) : ∀ x ∈ l, x = 0 := by
  induction l with
  | nil => intro x hx; cases hx
  | cons b t ih =>
    rw [List.sum_cons] at hs
    have hb : 0 ≤ b := hnn b (List.mem_cons_self _ _)
    have ht : 0 ≤ t.sum :=
      List.sum_nonneg (fun x hx => hnn x (List.mem_cons_of_mem _ hx))
    have hb0 : b = 0 := by linarith
    have hts : t.sum = 0 := by linarith
    intro x hx
    rcases List.mem_cons.mp hx with rfl | hxt
    · exact hb0
    · exact ih (fun y hy => hnn y (List.mem_cons_of_mem _ hy)) hts x hxt

theorem gainMeanLast_eq (xs : List ℚ) (h : 14 ≤ xs.length) :
    gainMeanLast xs = some (((winOpts xs).map pyGain).sum / (14 : ℚ)) := by
  have h1 : gainMeanLast xs
      = some (((gains xs).drop ((gains xs).length - 14)).sum / ((14 : Nat) : ℚ)) :=
    lastOpt_rollingMean_full 14 _ (by norm_num) (by rw [gains_length]; exact h)
  rw [h1, gains_length]
  norm_num
  rw [gains, winOpts, List.map_drop]

theorem lossMeanLast_eq (xs : List ℚ) (h : 14 ≤ xs.length) :
    lossMeanLast xs = some (((winOpts xs).map pyLoss).sum / (14 : ℚ)) := by
  have h1 : lossMeanLast xs
      = some (((losses xs).drop ((losses xs).length - 14)).sum / ((14 : Nat) : ℚ)) :=
    lastOpt_rollingMean_full 14 _ (by norm_num) (by rw [losses_length]; exact h)
  rw [h1, losses_length]
  norm_num
  rw [losses, winOpts, List.map_drop]

theorem rsiLast_eq (xs : List ℚ) (h : 14 ≤ xs.length) :
    rsiLast xs = some (rsiOfRs (fdiv
      (((winOpts xs).map pyGain).sum / (14 : ℚ))
      (((winOpts xs).map pyLoss).sum / (14 : ℚ)))) := by
  rw [rsiLast, gainMeanLast_eq xs h, lossMeanLast_eq xs h]

theorem gain_sum_zero (xs : List ℚ) (hz : ∀ d ∈ winDeltas xs, d = 0) :
    ((winOpts xs).map pyGain).sum = 0 := by
  apply List.sum_eq_zero
  intro x hx
  obtain ⟨o, ho, rfl⟩ := List.mem_map.mp hx
  exact pyGain_eq_zero o (hz _ (List.mem_map_of_mem _ ho))

theorem loss_sum_zero (xs : List ℚ) (hz : ∀ d ∈ winDeltas xs, d = 0) :
    ((winOpts xs).map pyLoss).sum = 0 := by
  apply List.sum_eq_zero
  intro x hx
  obtain ⟨o, ho, rfl⟩ := List.mem_map.mp hx
  exact pyLoss_eq_zero o (hz _ (List.mem_map_of_mem _ ho))

/-- With a constant last window the gain-mean and loss-mean are both zero,
`rs` is the float 0/0 = NaN, and the oscillator itself is NaN. -/
theorem rsiLast_nan_of_zero_window (xs : List ℚ) (h : 14 ≤ xs.length)
    (hz : ∀ d ∈ winDeltas xs, d = 0) : rsiLast xs = some Fp.nan := by
  rw [rsiLast_eq xs h, gain_sum_zero xs hz, loss_sum_zero xs hz]
  norm_num [fdiv, rsiOfRs]

/-- C3 counterexample: a constant 14-point price series (every delta in
the window is 0, hence non-negative) yields an RSI of NaN, not a value in
[0, 100] and not 100; NaN is not the saturated value 100. -/
theorem c3_counterexample :
    rsiLast ((5 : ℚ) :: 5 :: 5 :: 5 :: 5 :: 5 :: 5 :: 5 :: 5 :: 5 :: 5 ::
        5 :: 5 :: 5 :: []) = some Fp.nan ∧
    Fp.nan ≠ Fp.val 100 := by
  constructor
  · apply rsiLast_nan_of_zero_window
    · norm_num
    · norm_num [winDeltas, winOpts, diffs, List.zipWith]
  · intro hc
    cases hc

/-- C3 (amended): once the 14-period window is filled, the oscillator is
defined; it is a rational in [0, 100] whenever some delta in the window is
nonzero; it equals 100 when all deltas are non-negative and at least one
is positive; but when every delta in the window is zero (a constant
window) the zero gain-mean and zero loss-mean make it NaN rather than a
value in [0, 100]. -/
theorem c3_rsi_range_amended (xs : List ℚ) (h14 : 14 ≤ xs.length) :
    (∃ r, rsiLast xs = some r) ∧
    ((∀ d ∈ winDeltas xs, d = 0) → rsiLast xs = some Fp.nan) ∧
    ((∃ d ∈ winDeltas xs, d ≠ 0) →
      ∃ q, rsiLast xs = some (Fp.val q) ∧ 0 ≤ q ∧ q ≤ 100) ∧
    ((∀ d ∈ winDeltas xs, 0 ≤ d) → (∃ d ∈ winDeltas xs, 0 < d) →
      rsiLast xs = some (Fp.val 100)) := by
  have hG : 0 ≤ ((winOpts xs).map pyGain).sum := by
    apply List.sum_nonneg
    intro x hx
    obtain ⟨o, _, rfl⟩ := List.mem_map.mp hx
    exact pyGain_nonneg o
  have hL : 0 ≤ ((winOpts xs).map pyLoss).sum := by
    apply List.sum_nonneg
    intro x hx
    obtain ⟨o, _, rfl⟩ := List.mem_map.mp hx
    exact pyLoss_nonneg o
  refine ⟨⟨_, rsiLast_eq xs h14⟩, rsiLast_nan_of_zero_window xs h14, ?_, ?_⟩
  · rintro ⟨d, hd, hdne⟩
    obtain ⟨o, ho, rfl⟩ := List.mem_map.mp hd
    by_cases hL0 : ((winOpts xs).map pyLoss).sum = 0
    · have hlossz : ∀ x ∈ (winOpts xs).map pyLoss, x = 0 :=
        sum_nonneg_eq_zero _ (fun x hx => by
          obtain ⟨o', _, rfl⟩ := List.mem_map.mp hx
          exact pyLoss_nonneg o') hL0
      have hopos : 0 < o.getD 0 := by
        rcases lt_trichotomy (o.getD 0) 0 with hlt | heq | hgt
        · exact absurd (hlossz _ (List.mem_map_of_mem _ ho))
            (ne_of_gt (pyLoss_pos o hlt))
        · exact absurd heq hdne
        · exact hgt
      have hGpos : 0 < ((winOpts xs).map pyGain).sum :=
        sum_pos_of_mem _ (fun x hx => by
            obtain ⟨o', _, rfl⟩ := List.mem_map.mp hx
            exact pyGain_nonneg o') _
          (List.mem_map_of_mem _ ho) (pyGain_pos o hopos)
      refine ⟨100, ?_, by norm_num, by norm_num⟩
      rw [rsiLast_eq xs h14, hL0]
      have hGd : (0 : ℚ) < ((winOpts xs).map pyGain).sum / 14 := by positivity
      rw [show ((0 : ℚ) / 14) = 0 from zero_div 14]
      rw [fdiv, if_pos rfl, if_neg (ne_of_gt hGd), if_pos hGd]
      rfl
    · -- the loss mean is positive: a finite ratio and a value in [0, 100)
      have hLpos : 0 < ((winOpts xs).map pyLoss).sum :=
        lt_of_le_of_ne hL (fun hc => hL0 hc.symm)
      have hLd : (0 : ℚ) < ((winOpts xs).map pyLoss).sum / 14 := by positivity
      set t : ℚ := (((winOpts xs).map pyGain).sum / 14)
        / (((winOpts xs).map pyLoss).sum / 14) with ht
      have htnn : 0 ≤ t := by positivity
      have h1t : (1 : ℚ) ≤ 1 + t := by linarith
      have h1t0 : (1 : ℚ) + t ≠ 0 := by linarith
      have hub : 100 / (1 + t) ≤ 100 := div_le_self (by norm_num) h1t
      have hlb : 0 ≤ 100 / (1 + t) := div_nonneg (by norm_num) (by linarith)
      refine ⟨100 - 100 / (1 + t), ?_, by linarith, by linarith⟩
      rw [rsiLast_eq xs h14, fdiv, if_neg (ne_of_gt hLd), rsiOfRs]
      rw [if_neg (by rw [← ht]; exact h1t0)]
  · intro hnn hpos
    have hlossz : ∀ x ∈ (winOpts xs).map pyLoss, x = 0 := by
      intro x hx
      obtain ⟨o, ho, rfl⟩ := List.mem_map.mp hx
      exact pyLoss_eq_zero_of_nonneg o (hnn _ (List.mem_map_of_mem _ ho))
    have hL0 : ((winOpts xs).map pyLoss).sum = 0 := List.sum_eq_zero hlossz
    obtain ⟨d, hd, hdpos⟩ := hpos
    obtain ⟨o, ho, rfl⟩ := List.mem_map.mp hd
    have hGpos : 0 < ((winOpts xs).map pyGain).sum :=
      sum_pos_of_mem _ (fun x hx => by
          obtain ⟨o', _, rfl⟩ := List.mem_map.mp hx
          exact pyGain_nonneg o') _
        (List.mem_map_of_mem _ ho) (pyGain_pos o hdpos)
    rw [rsiLast_eq xs h14, hL0]
    have hGd : (0 : ℚ) < ((winOpts xs).map pyGain).sum / 14 := by positivity
    rw [show ((0 : ℚ) / 14) = 0 from zero_div 14]
    rw [fdiv, if_pos rfl, if_neg (ne_of_gt hGd), if_pos hGd]
    rfl

/-- C3 witness: a 14-point series rising only at the last step has all
window deltas non-negative and one positive, so the oscillator saturates
at exactly 100. -/
theorem c3_rsi_range_amended_witness :
    rsiLast ((1 : ℚ) :: 1 :: 1 :: 1 :: 1 :: 1 :: 1 :: 1 :: 1 :: 1 :: 1 ::
        1 :: 1 :: 2 :: []) = some (Fp.val 100) :=
  (c3_rsi_range_amended ((1 : ℚ) :: 1 :: 1 :: 1 :: 1 :: 1 :: 1 :: 1 :: 1 ::
      1 :: 1 :: 1 :: 1 :: 2 :: []) (by norm_num)).2.2.2
    (by norm_num [winDeltas, winOpts, diffs, List.zipWith])
    (by norm_num [winDeltas, winOpts, diffs, List.zipWith])

end YAI
